import Mathlib

/-
Verification of the hyperparameter-optimization dashboard pipeline
(`optimization.py`): a shallow embedding of the sidebar configuration,
the numeric grid construction (numpy `arange`), the train/test split
(sklearn `train_test_split`), the standardization step
(`StandardScaler`), the metric computations (`classification_report`,
confusion matrix) and the surface-plot reshaping
(groupby / pivot), together with theorems settling the specified
properties against this embedding.

Machine floating point is modelled with exact rationals (ℚ) for the
statistics and with ℝ where a square root is required; integer-valued
hyperparameters are modelled with ℤ/ℕ.
-/

/-- The sidebar state (lines 20-41 of `optimization.py`), gathered into one
record.  Slider semantics: `splitSize` is the value of the slider labelled
"Data split ratio (% for Training Set)" (range 50-90, default 80);
`nEstLo`/`nEstHi` come from the `n_estimators` range slider with step input
`nEstStep`; `maxFeatures` from the multiselect; `maxDepthLo`/`maxDepthHi`/
`maxDepthStep` from the max-depth widgets; `cv` from the cross-validation
slider (2-10, default 2); `seed` from the `random_state` slider (default 42);
`bootstrap` and `nJobs` from the last two select sliders. -/
structure Config where
  splitSize : ℕ
  nEstLo : ℤ
  nEstHi : ℤ
  nEstStep : ℤ
  maxFeatures : List String
  maxDepthLo : ℤ
  maxDepthHi : ℤ
  maxDepthStep : ℤ
  criterion : String
  cv : ℕ
  seed : ℕ
  bootstrap : Bool
  nJobs : ℤ
deriving DecidableEq

/-- The widget default values: split 80, `n_estimators` range (10, 50) step 10,
`max_features` = ["auto"], depth range (5, 8) step 1, criterion "gini",
cv 2, seed 42, bootstrap true, `n_jobs` 1. -/
def defaultConfig : Config :=
  ⟨80, 10, 50, 10, ["auto"], 5, 8, 1, "gini", 2, 42, true, 1⟩

/-- Number of elements numpy's `arange(start, stop, step)` produces for a
positive `step`: the ceiling of `(stop - start) / step`, clamped at zero
(numpy rejects `step = 0`; a non-positive `step` is out of scope here and
mapped to the empty range). -/
def arangeLen (start stop step : ℤ) : ℕ :=
  if 0 < step then (stop - start + step - 1).toNat / step.toNat else 0

/-- `n` equally spaced values `s, s + st, s + 2*st, ...`. -/
def arangeAux : ℕ → ℤ → ℤ → List ℤ
  | 0, _, _ => []
  | Nat.succ n, s, st => s :: arangeAux n (s + st) st

/-- numpy `arange(start, stop, step)` on integers: values
`start, start + step, ...` strictly below `stop`. -/
def arange (start stop step : ℤ) : List ℤ :=
  arangeAux (arangeLen start stop step) start step

/-- The app's numeric range construction (lines 44-45):
`np.arange(lo, hi + step, step)` — the upper slider bound plus one step is
used as the (exclusive) `arange` stop. -/
def gridRange (lo hi step : ℤ) : List ℤ :=
  arange lo (hi + step) step

/-- Line 44: `n_estimators_range = np.arange(parameter_n_estimators[0],
parameter_n_estimators[1] + parameter_n_estimators_step,
parameter_n_estimators_step)`. -/
def n_estimators_range (c : Config) : List ℤ :=
  gridRange c.nEstLo c.nEstHi c.nEstStep

/-- Line 45: `max_depth_range = np.arange(parameter_max_depth[0],
parameter_max_depth[1] + parameter_max_depth_step,
parameter_max_depth_step)`. -/
def max_depth_range (c : Config) : List ℤ :=
  gridRange c.maxDepthLo c.maxDepthHi c.maxDepthStep

/-- The dictionary built at line 46: `param_grid = dict(max_features=...,
n_estimators=..., max_depth=...)`. -/
structure ParamGrid where
  max_features : List String
  n_estimators : List ℤ
  max_depth : List ℤ
deriving DecidableEq

/-- Line 46. -/
def param_grid (c : Config) : ParamGrid :=
  ⟨c.maxFeatures, n_estimators_range c, max_depth_range c⟩

/-- The whole configuration-to-grid stage (lines 44-46).  The source contains
no validation and no raise on this path, so the stage always succeeds; the
`Except` codomain records that the stage could in principle surface an error
to the user, which the code never does. -/
def configStage (c : Config) : Except String ParamGrid :=
  Except.ok (param_grid c)

/-- Index selection: `l[idx]` for a list of row indices (out-of-range indices
select nothing; the permutations supplied by the library are always
in range). -/
def selectIdx {α : Type} (l : List α) (idx : List ℕ) : List α :=
  idx.filterMap (fun i => l[i]?)

/-- The four outputs of `train_test_split`. -/
structure Split (α β : Type) where
  xTrain : List α
  xTest : List α
  yTrain : List β
  yTest : List β
deriving DecidableEq

/-- sklearn `train_test_split(X, Y, test_size=testSize)` with an integer
`testSize`: the library draws a fresh permutation `perm` of the row indices
(from its global random source, since `random_state` is not passed at
line 66), takes the first `testSize` permuted rows as the test partition and
the remaining rows as the training partition. -/
def train_test_split {α β : Type} (X : List α) (Y : List β) (testSize : ℕ)
    (perm : List ℕ) : Split α β :=
  ⟨selectIdx X (perm.drop testSize), selectIdx X (perm.take testSize),
   selectIdx Y (perm.drop testSize), selectIdx Y (perm.take testSize)⟩

/-- Line 66: `X_train, X_test, Y_train, Y_test = train_test_split(X, Y,
test_size=split_size)`.  Note that the slider percentage `split_size` is
passed directly as `test_size`, and that `c.seed` (the `random_state` slider)
is not passed: the permutation `perm` is an input the configuration does not
determine. -/
def modelSplit {α β : Type} (c : Config) (X : List α) (Y : List β)
    (perm : List ℕ) : Split α β :=
  train_test_split X Y c.splitSize perm

/-- Partition sizes produced by sklearn `train_test_split` for an integer
`test_size` on an `n`-row input: `(n - test_size, test_size)`
(train rows, test rows). -/
def train_test_split_counts (n testSize : ℕ) : ℕ × ℕ :=
  (n - testSize, testSize)

/-- The split sizes the app's line 66 requests on an `n`-row dataset. -/
def splitStepCounts (c : Config) (n : ℕ) : ℕ × ℕ :=
  train_test_split_counts n c.splitSize

/-- The arguments that reach the library search call
`GridSearchCV(estimator=rf, param_grid=param_grid,
cv=parameter_cross_validation)` / `grid.fit(X_train, Y_train)`
(lines 75-76). -/
structure SearchCall where
  cv : ℕ
  nTrainSamples : ℕ
  grid : ParamGrid
deriving DecidableEq

/-- Everything `model()` does between the configuration and the library
search call (lines 66-76) as far as the search arguments are concerned:
the training partition has `n - split_size` rows and the configured fold
count is passed through unchanged.  The source performs no check of `cv`
against the training size and raises nothing on this path, so the stage
always reaches the library call. -/
def searchPrelude (c : Config) (nSamples : ℕ) : Except String SearchCall :=
  Except.ok ⟨c.cv, nSamples - c.splitSize, param_grid c⟩

/-- Arithmetic mean of a list of exact values (pandas / numpy `mean`). -/
def mean (l : List ℚ) : ℚ :=
  l.sum / l.length

/-- Population variance (sklearn `StandardScaler` uses `ddof = 0`). -/
def variance (l : List ℚ) : ℚ :=
  ((l.map (fun x => (x - mean l) ^ 2)).sum) / l.length

/-- The values of column `j` of a row-major feature matrix. -/
def colVals (X : List (List ℚ)) (j : ℕ) : List ℚ :=
  X.filterMap (fun r => r.get? j)

/-- The number of feature columns (taken from the first row). -/
def nCols (X : List (List ℚ)) : ℕ :=
  (X.head?.map List.length).getD 0

/-- The state sklearn's `StandardScaler` holds after `fit`: a per-column
mean and a per-column variance. -/
structure ScalerState where
  means : List ℚ
  vars : List ℚ
deriving DecidableEq

/-- `StandardScaler.fit(X)`: learn the per-column means and variances
of `X`. -/
def StandardScaler_fit (X : List (List ℚ)) : ScalerState :=
  ⟨(List.range (nCols X)).map (fun j => mean (colVals X j)),
   (List.range (nCols X)).map (fun j => variance (colVals X j))⟩

/-- One scaled entry: `(x - mean) / sqrt variance`; sklearn replaces a zero
scale by 1 (`_handle_zeros_in_scale`), so a constant column is only
centred.  The square root forces the codomain ℝ. -/
noncomputable def scaleVal (m v : ℚ) (x : ℚ) : ℝ :=
  if v = 0 then (x : ℝ) - (m : ℝ) else ((x : ℝ) - (m : ℝ)) / Real.sqrt (v : ℝ)

/-- `StandardScaler.transform(X)`: apply the fitted column-wise affine map
to every row of `X`. -/
noncomputable def ScalerState.transform (s : ScalerState) (X : List (List ℚ)) :
    List (List ℝ) :=
  X.map (fun r => (r.zip (s.means.zip s.vars)).map
    (fun p => scaleVal p.2.1 p.2.2 p.1))

/-- The data produced by the standardization step. -/
structure StandardizeResult where
  xTrainScaled : List (List ℝ)
  xTestScaled : List (List ℝ)
  fitted : ScalerState

/-- Lines 69-71: `sc = StandardScaler()`, `X_train = sc.fit_transform(X_train)`,
`X_test = sc.transform(X_test)`.  `fit_transform` fits on its argument and
then transforms it; the subsequent `transform` reuses the state fitted at the
`fit_transform` call. -/
noncomputable def standardizeStep (xTr xTe : List (List ℚ)) : StandardizeResult :=
  let sc := StandardScaler_fit xTr
  ⟨sc.transform xTr, sc.transform xTe, sc⟩

/-- The names the body of `model()` (lines 61-116) binds locally.  In Python
these bindings live in the function's local scope and are discarded when the
call returns. -/
def model_local_names : List String :=
  ["Y", "X", "X_train", "X_test", "Y_train", "Y_test", "sc", "rf", "grid",
   "Y_pred_test", "grid_results", "grid_contour", "grid_reset", "grid_pivot",
   "x", "y", "z", "layout", "fig"]

/-- The names bound at module scope by the time line 126 executes: the
imports (lines 1-10), the sidebar variables (lines 16-41), the derived grid
variables (lines 44-46), the function `model` (line 61) and `dataset`
(line 121).  `model()` returns `None` and binds nothing at module scope. -/
def module_names_at_line_126 : List String :=
  ["st", "np", "pd", "RandomForestClassifier", "train_test_split",
   "StandardScaler", "cross_val_score", "GridSearchCV", "accuracy_score",
   "classification_report", "plot_confusion_matrix", "go", "df",
   "split_size", "parameter_n_estimators", "parameter_n_estimators_step",
   "parameter_max_features", "parameter_max_depth", "parameter_max_depth_step",
   "parameter_criterion", "parameter_cross_validation",
   "parameter_random_state", "parameter_bootstrap", "parameter_n_jobs",
   "n_estimators_range", "max_depth_range", "param_grid", "model", "dataset"]

/-- Whether a Python name resolves in the given environment. -/
def lookupName (env : List String) (n : String) : Bool :=
  env.contains n

/-- Line 126, `clf = classification_report(Y_test, Y_pred_test, ...)`, as
executed at module scope: Python resolves the argument names first
(`Y_test`, then `Y_pred_test`) and raises `NameError` for the first one that
is unbound; only if both resolve does the call itself run. -/
def reportStep (env : List String) : Except String Unit :=
  if lookupName env "Y_test" = false then
    Except.error "NameError: name Y_test is not defined"
  else if lookupName env "Y_pred_test" = false then
    Except.error "NameError: name Y_pred_test is not defined"
  else
    Except.ok ()

/-- Sorted deduplicated labels, as sklearn's `unique_labels` and pandas'
sorted group keys produce them. -/
def uniqueSorted (l : List ℤ) : List ℤ :=
  List.insertionSort (fun a b => a ≤ b) l.dedup

/-- How many of the (true, predicted) pairs equal `(a, p)`. -/
def pairCount (L : List (ℤ × ℤ)) (a p : ℤ) : ℕ :=
  (L.filter (fun q => q.1 = a ∧ q.2 = p)).length

/-- sklearn `confusion_matrix(y_true, y_pred)` as invoked (indirectly) by
`plot_confusion_matrix(grid, X_test, Y_test, ...)` at line 140: rows and
columns are indexed by the sorted union of the labels occurring in either
vector, and cell `(a, p)` counts the samples with true label `a` and
predicted label `p`. -/
def confusionMatrix (yT yP : List ℤ) : List (List ℕ) :=
  (uniqueSorted (yT ++ yP)).map (fun a =>
    (uniqueSorted (yT ++ yP)).map (fun p => pairCount (yT.zip yP) a p))

/-- Sum of all entries of a count matrix. -/
def matrixSum (m : List (List ℕ)) : ℕ :=
  (m.map List.sum).sum

/-- True positives of class `l`: samples whose true and predicted label are
both `l`. -/
def truePos (yT yP : List ℤ) (l : ℤ) : ℕ :=
  ((yT.zip yP).filter (fun q => q.1 = l ∧ q.2 = l)).length

/-- Predicted positives of class `l`. -/
def predPos (yP : List ℤ) (l : ℤ) : ℕ :=
  (yP.filter (fun v => v = l)).length

/-- Actual positives (support) of class `l`. -/
def actualPos (yT : List ℤ) (l : ℤ) : ℕ :=
  (yT.filter (fun v => v = l)).length

/-- Precision with sklearn's default `zero_division` handling: an undefined
`0/0` is reported as 0 (with a warning, which has no effect on the value). -/
def precisionOf (yT yP : List ℤ) (l : ℤ) : ℚ :=
  if predPos yP l = 0 then 0 else (truePos yT yP l : ℚ) / (predPos yP l : ℚ)

/-- Recall with the same `zero_division` handling. -/
def recallOf (yT yP : List ℤ) (l : ℤ) : ℚ :=
  if actualPos yT l = 0 then 0 else (truePos yT yP l : ℚ) / (actualPos yT l : ℚ)

/-- F1, the harmonic mean of precision and recall, 0 when both vanish. -/
def f1Of (yT yP : List ℤ) (l : ℤ) : ℚ :=
  if precisionOf yT yP l + recallOf yT yP l = 0 then 0
  else 2 * precisionOf yT yP l * recallOf yT yP l /
    (precisionOf yT yP l + recallOf yT yP l)

/-- The per-class triples reported by the metrics dictionary. -/
structure ClassMetrics where
  precisionScore : ℚ
  recallScore : ℚ
  f1Score : ℚ
deriving DecidableEq

/-- Line 126: `classification_report(Y_test, Y_pred_test, labels=[0, 1],
output_dict=True)`, restricted to the per-class entries the app reads
(`clf['0']` and `clf['1']`): one `(label, metrics)` entry per requested
label. -/
def classification_report (yT yP : List ℤ) (labels : List ℤ) :
    List (ℤ × ClassMetrics) :=
  labels.map (fun l => (l, ⟨precisionOf yT yP l, recallOf yT yP l, f1Of yT yP l⟩))

/-- One row of the score table built at line 93 from
`grid.cv_results_["params"]` and `grid.cv_results_["mean_test_score"]`,
restricted to the two plotted hyperparameters. -/
structure ScoreRow where
  maxDepth : ℤ
  nEst : ℤ
  acc : ℚ
deriving DecidableEq

/-- The `(max_depth, n_estimators)` key of each table row. -/
def keyList (rows : List ScoreRow) : List (ℤ × ℤ) :=
  rows.map (fun r => (r.maxDepth, r.nEst))

/-- The accuracies of all rows with the given key. -/
def accsFor (rows : List ScoreRow) (k : ℤ × ℤ) : List ℚ :=
  (rows.filter (fun r => r.maxDepth = k.1 ∧ r.nEst = k.2)).map ScoreRow.acc

/-- The group mean `groupby(['max_depth', 'n_estimators']).mean()` assigns to
a key that occurs in the table. -/
def meanAccFor (rows : List ScoreRow) (k : ℤ × ℤ) : ℚ :=
  mean (accsFor rows k)

/-- The surface-plot input produced by lines 93-100: `x` the sorted unique
`n_estimators` values, `y` the sorted unique `max_depth` values, `z` the
pivot table. -/
structure SurfaceData where
  x : List ℤ
  y : List ℤ
  z : List (List (Option ℚ))

/-- Lines 93-100: group the score table by `(max_depth, n_estimators)`
averaging the accuracy, then pivot: rows indexed by the sorted unique
`max_depth` values, columns by the sorted unique `n_estimators` values; a
cell holds the group mean when the combination occurs in the table and NaN
(`none`) otherwise. -/
def surfaceData (rows : List ScoreRow) : SurfaceData :=
  ⟨uniqueSorted (rows.map ScoreRow.nEst),
   uniqueSorted (rows.map ScoreRow.maxDepth),
   (uniqueSorted (rows.map ScoreRow.maxDepth)).map (fun mdv =>
     (uniqueSorted (rows.map ScoreRow.nEst)).map (fun nev =>
       if (mdv, nev) ∈ keyList rows
       then some (meanAccFor rows (mdv, nev)) else none))⟩

/-- A 52-row dataset (row identifiers standing for rows of `dataset.csv`). -/
def dataRun : List ℕ :=
  List.range 52

/-- A configuration with the split slider at its minimum 50 and everything
else at the widget defaults. -/
def cfgSplit50 : Config :=
  ⟨50, 10, 50, 10, ["auto"], 5, 8, 1, "gini", 2, 42, true, 1⟩

/-- A configuration whose `max_features` multiselect has been emptied;
everything else at the widget defaults. -/
def cfgNoFeatures : Config :=
  ⟨80, 10, 50, 10, [], 5, 8, 1, "gini", 2, 42, true, 1⟩

/-- A configuration with the fold slider at its maximum 10 and the split
slider at 50; everything else at the widget defaults. -/
def cfgTenFolds : Config :=
  ⟨50, 10, 50, 10, ["auto"], 5, 8, 1, "gini", 10, 42, true, 1⟩

/-- A non-rectangular score table: the combination `(7, 60)` is missing. -/
def rowsPartial : List ScoreRow :=
  [⟨5, 10, 4/5⟩, ⟨5, 60, 7/10⟩, ⟨7, 10, 3/5⟩]

/-- `arangeAux n s st` lists `s + st * i` for `i < n`. -/
theorem arangeAux_eq_map (st : ℤ) :
    ∀ (n : ℕ) (s : ℤ),
      arangeAux n s st = (List.range n).map (fun i : ℕ => s + st * (i : ℤ)) := by
  intro n
  induction n with
  | zero => intro s; simp [arangeAux]
  | succ m ih =>
    intro s
    have h1 : arangeAux (m + 1) s st = s :: arangeAux m (s + st) st := rfl
    rw [h1, ih (s + st), List.range_succ_eq_map, List.map_cons, List.map_map]
    congr 1
    · push_cast
      ring
    · refine List.map_congr_left ?_
      intro i _
      simp only [Function.comp_apply]
      push_cast
      ring

/-- `arangeAux` produces exactly `n` values. -/
theorem arangeAux_length (st : ℤ) :
    ∀ (n : ℕ) (s : ℤ), (arangeAux n s st).length = n := by
  intro n
  induction n with
  | zero => intro s; simp [arangeAux]
  | succ m ih => intro s; simp [arangeAux, ih (s + st)]

/-- Consecutive `arangeAux` values are exactly `st` apart. -/
theorem arangeAux_chain (st : ℤ) :
    ∀ (n : ℕ) (s : ℤ), List.Chain' (fun a b => b = a + st) (arangeAux n s st) := by
  intro n
  induction n with
  | zero => intro s; simp [arangeAux]
  | succ m ih =>
    intro s
    cases m with
    | zero => simp [arangeAux]
    | succ k =>
      have h := ih (s + st)
      simp only [arangeAux] at h ⊢
      exact List.Chain'.cons rfl h

/-- Membership in `arange`: every element is `start + step * i` for some
index `i` below the length. -/
theorem arange_mem {start stop step x : ℤ}
    (h : x ∈ arange start stop step) :
    ∃ i : ℕ, i < arangeLen start stop step ∧ x = start + step * (i : ℤ) := by
  rw [arange, arangeAux_eq_map] at h
  rcases List.mem_map.mp h with ⟨i, hi, hx⟩
  exact ⟨i, List.mem_range.mp hi, hx.symm⟩

/-- With `lo ≤ hi` and a positive step, the app's grid is nonempty. -/
theorem gridRange_len_pos (lo hi st : ℤ) (h1 : lo ≤ hi) (h2 : 0 < st) :
    0 < arangeLen lo (hi + st) st := by
  rw [arangeLen, if_pos h2]
  refine Nat.div_pos ?_ (by omega)
  omega

/-- With `lo ≤ hi` and a positive step, every grid element is below
`hi + step`. -/
theorem gridRange_upper (lo hi st : ℤ) (h1 : lo ≤ hi) (h2 : 0 < st) :
    ∀ x ∈ gridRange lo hi st, x < hi + st := by
  intro x hx
  rcases arange_mem hx with ⟨i, hi', hx'⟩
  rw [arangeLen, if_pos h2] at hi'
  have hmul : (i + 1) * st.toNat ≤ (hi + st - lo + st - 1).toNat := by
    calc (i + 1) * st.toNat
        ≤ ((hi + st - lo + st - 1).toNat / st.toNat) * st.toNat :=
          Nat.mul_le_mul_right _ hi'
      _ ≤ (hi + st - lo + st - 1).toNat := Nat.div_mul_le_self _ _
  have hNt : (((hi + st - lo + st - 1).toNat : ℕ) : ℤ) = hi + st - lo + st - 1 :=
    Int.toNat_of_nonneg (by omega)
  have hstt : ((st.toNat : ℕ) : ℤ) = st := Int.toNat_of_nonneg h2.le
  have hcast : ((i : ℤ) + 1) * st ≤ hi + st - lo + st - 1 := by
    have h3 : (((i + 1) * st.toNat : ℕ) : ℤ) ≤ (((hi + st - lo + st - 1).toNat : ℕ) : ℤ) :=
      Int.ofNat_le.mpr hmul
    rw [hNt] at h3
    push_cast [hstt] at h3
    linarith
  have hexp : (i : ℤ) * st + st ≤ hi + st - lo + st - 1 := by nlinarith [hcast]
  have : x = lo + st * (i : ℤ) := hx'
  nlinarith [hexp]

/-- With a positive step, every grid element is at least `lo`. -/
theorem gridRange_lower (lo hi st : ℤ) (h2 : 0 < st) :
    ∀ x ∈ gridRange lo hi st, lo ≤ x := by
  intro x hx
  rcases arange_mem hx with ⟨i, _, hx'⟩
  have : (0 : ℤ) ≤ st * i := mul_nonneg h2.le (by positivity)
  omega

/-- With `lo ≤ hi` and a positive step, the grid starts at `lo`. -/
theorem gridRange_head (lo hi st : ℤ) (h1 : lo ≤ hi) (h2 : 0 < st) :
    (gridRange lo hi st).head? = some lo := by
  have hpos := gridRange_len_pos lo hi st h1 h2
  rw [gridRange, arange]
  cases hn : arangeLen lo (hi + st) st with
  | zero => omega
  | succ m => simp [arangeAux]

/-- Consecutive grid elements are exactly `step` apart. -/
theorem gridRange_chain (lo hi st : ℤ) :
    List.Chain' (fun a b => b = a + st) (gridRange lo hi st) :=
  arangeAux_chain st _ lo

/-- Selecting rows by a list of in-range indices yields one row per index. -/
theorem selectIdx_length {α : Type} (l : List α) (idx : List ℕ)
    (h : ∀ i ∈ idx, i < l.length) : (selectIdx l idx).length = idx.length := by
  induction idx with
  | nil => rfl
  | cons a idx ih =>
    have ha : a < l.length := h a (List.mem_cons_self a idx)
    have h' : ∀ i ∈ idx, i < l.length := fun i hi => h i (List.mem_cons_of_mem a hi)
    simp [selectIdx, List.filterMap_cons, List.getElem?_eq_getElem ha, ← ih h']

/-- For any permutation of the row indices, the training partition produced
at line 66 has `n - split_size` rows: the slider value is consumed as an
absolute test-row count. -/
theorem modelSplit_train_length {α β : Type} (c : Config) (X : List α)
    (Y : List β) (perm : List ℕ) (hperm : perm.Perm (List.range X.length)) :
    (modelSplit c X Y perm).xTrain.length = X.length - c.splitSize := by
  have hmem : ∀ i ∈ perm, i < X.length := fun i hi =>
    List.mem_range.mp (hperm.mem_iff.mp hi)
  have hdrop : ∀ i ∈ perm.drop c.splitSize, i < X.length := fun i hi =>
    hmem i (List.mem_of_mem_drop hi)
  have hlen := selectIdx_length X (perm.drop c.splitSize) hdrop
  have hplen : perm.length = X.length := by
    rw [hperm.length_eq, List.length_range]
  calc (modelSplit c X Y perm).xTrain.length
      = (perm.drop c.splitSize).length := hlen
    _ = perm.length - c.splitSize := List.length_drop _ _
    _ = X.length - c.splitSize := by rw [hplen]

/-- For any permutation of the row indices, the test partition produced at
line 66 has exactly `split_size` rows (when the dataset is large enough). -/
theorem modelSplit_test_length {α β : Type} (c : Config) (X : List α)
    (Y : List β) (perm : List ℕ) (hperm : perm.Perm (List.range X.length))
    (hle : c.splitSize ≤ X.length) :
    (modelSplit c X Y perm).xTest.length = c.splitSize := by
  have hmem : ∀ i ∈ perm, i < X.length := fun i hi =>
    List.mem_range.mp (hperm.mem_iff.mp hi)
  have htake : ∀ i ∈ perm.take c.splitSize, i < X.length := fun i hi =>
    hmem i (List.mem_of_mem_take hi)
  have hlen := selectIdx_length X (perm.take c.splitSize) htake
  have hplen : perm.length = X.length := by
    rw [hperm.length_eq, List.length_range]
  calc (modelSplit c X Y perm).xTest.length
      = (perm.take c.splitSize).length := hlen
    _ = min c.splitSize perm.length := List.length_take _ _
    _ = c.splitSize := by omega

set_option maxRecDepth 4000 in
/-- Claim C1: the spec says an 80% training ratio on 300 rows yields 240
train / 60 test rows (±1).  The code (line 66) passes the raw slider value
80 as sklearn's `test_size`, i.e. as an absolute test-row count, so a
300-row dataset is split into 220 training and 80 test rows — contradicting
both the claim and the slider's own label "% for Training Set". -/
theorem claim_c1_split_counts :
    splitStepCounts defaultConfig 300 = (220, 80) ∧
    splitStepCounts defaultConfig 300 ≠ (240, 60) ∧
    (modelSplit defaultConfig (List.range 300) (List.range 300)
      (List.range 300)).xTrain.length = 220 ∧
    (modelSplit defaultConfig (List.range 300) (List.range 300)
      (List.range 300)).xTest.length = 80 := by
  refine ⟨rfl, by decide, ?_, ?_⟩
  · rw [modelSplit_train_length defaultConfig (List.range 300) (List.range 300)
      (List.range 300) (List.Perm.refl _)]
    simp [defaultConfig]
  · rw [modelSplit_test_length defaultConfig (List.range 300) (List.range 300)
      (List.range 300) (List.Perm.refl _) (by simp [defaultConfig])]
    rfl

/-- Claim C2: determinism under a fixed seed fails.  Line 66 calls
`train_test_split` without `random_state`, so the row permutation is drawn
from the library's global random source on every run; with the seed, grid,
dataset and parallelism hint all fixed (the configuration `cfgSplit50`,
seed 42), two runs whose internal draws are the identity and the reversed
permutation of the row indices already produce different test partitions —
and the score table and best-parameter selection are computed from these
partitions. -/
theorem claim_c2_split_nondeterministic :
    ((List.range 52).reverse).Perm (List.range 52) ∧
    (modelSplit cfgSplit50 dataRun dataRun (List.range 52)).yTest ≠
      (modelSplit cfgSplit50 dataRun dataRun ((List.range 52).reverse)).yTest :=
  ⟨List.reverse_perm _, by decide⟩

/-- Claim C3: the classification-report step does not receive
`Y_test`/`Y_pred_test`.  Those names are locals of `model()` (lines 66, 79)
and are discarded when the call at line 122 returns; line 126 then reads
them at module scope, where they are unbound, so the report step raises
`NameError` instead of consuming the evaluation's values. -/
theorem claim_c3_report_unbound_names :
    reportStep module_names_at_line_126 =
      Except.error "NameError: name Y_test is not defined" ∧
    "Y_test" ∉ module_names_at_line_126 ∧
    "Y_pred_test" ∉ module_names_at_line_126 ∧
    "Y_test" ∈ model_local_names ∧
    "Y_pred_test" ∈ model_local_names :=
  ⟨rfl, by decide, by decide, by decide, by decide⟩

/-- Claim C4 counterexample: on the valid triple (min, max, step) =
(5, 8, 2) the builder expands `np.arange(5, 8 + 2, 2)` to `[5, 7, 9]`,
whose maximum 9 exceeds `max = 8` — the claimed bound `maximum ≤ max`
fails. -/
theorem claim_c4_counterexample :
    gridRange 5 8 2 = [5, 7, 9] ∧ ¬ (∀ x ∈ gridRange 5 8 2, x ≤ 8) := by
  decide

/-- Claim C4 (amended): for all valid triples (`min ≤ max`, `step > 0`) the
expanded candidate set is nonempty, starts at (and is bounded below by)
`min`, is bounded above by `max + step` strictly (not by `max`: the last
element can overshoot `max` by up to `step - 1` when `step` does not divide
`max - min`), and consecutive elements are spaced exactly `step` apart. -/
theorem claim_c4_grid_range (lo hi st : ℤ) (h1 : lo ≤ hi) (h2 : 0 < st) :
    gridRange lo hi st ≠ [] ∧
    (gridRange lo hi st).head? = some lo ∧
    (∀ x ∈ gridRange lo hi st, lo ≤ x ∧ x < hi + st) ∧
    List.Chain' (fun a b => b = a + st) (gridRange lo hi st) := by
  refine ⟨?_, gridRange_head lo hi st h1 h2, ?_, gridRange_chain lo hi st⟩
  · intro hnil
    have hpos := gridRange_len_pos lo hi st h1 h2
    have h0 : (gridRange lo hi st).length = 0 := by rw [hnil]; rfl
    rw [gridRange, arange, arangeAux_length] at h0
    omega
  · intro x hx
    exact ⟨gridRange_lower lo hi st h2 x hx, gridRange_upper lo hi st h1 h2 x hx⟩

/-- Concrete instance of the amended C4 statement at (5, 8, 2). -/
theorem claim_c4_witness :
    ((5 : ℤ) ≤ 8 ∧ (0 : ℤ) < 2) ∧
    (gridRange 5 8 2 ≠ [] ∧
     (gridRange 5 8 2).head? = some 5 ∧
     (∀ x ∈ gridRange 5 8 2, 5 ≤ x ∧ x < 8 + 2) ∧
     List.Chain' (fun a b => b = a + 2) (gridRange 5 8 2)) :=
  ⟨by decide, claim_c4_grid_range 5 8 2 (by decide) (by decide)⟩

/-- Claim C5 counterexample: with the `max_features` multiselect emptied,
the configuration stage (lines 44-46) does not reject the configuration
and surfaces no "no candidate values" error: it succeeds, and the empty
list is included unchanged as the `max_features` dimension handed to the
search call. -/
theorem claim_c5_counterexample :
    cfgNoFeatures.maxFeatures = [] ∧
    configStage cfgNoFeatures = Except.ok (param_grid cfgNoFeatures) ∧
    (param_grid cfgNoFeatures).max_features = [] ∧
    configStage cfgNoFeatures ≠
      Except.error "no candidate values for parameter max_features" := by
  refine ⟨rfl, rfl, rfl, ?_⟩
  simp [configStage]

/-- Claim C5 (amended): the pipeline performs no pre-search validation of
the grid: for every configuration — an empty `max_features` selection
included — the configuration stage succeeds and passes the selection
through unchanged into the grid given to the search call. -/
theorem claim_c5_no_validation (c : Config) :
    configStage c = Except.ok (param_grid c) ∧
    (param_grid c).max_features = c.maxFeatures :=
  ⟨rfl, rfl⟩

/-- Claim C6 counterexample: with the fold slider at 10 and a 55-row
dataset (5 training rows after the 50-row test cut), the model step still
reaches the library call with `cv = 10` and raises nothing beforehand —
no fail-fast, no descriptive error. -/
theorem claim_c6_counterexample :
    cfgTenFolds.cv = 10 ∧
    searchPrelude cfgTenFolds 55 = Except.ok ⟨10, 5, param_grid cfgTenFolds⟩ ∧
    (5 : ℕ) < 10 ∧
    (∀ e : String, searchPrelude cfgTenFolds 55 ≠ Except.error e) := by
  refine ⟨rfl, rfl, by decide, ?_⟩
  intro e
  simp [searchPrelude]

/-- Claim C6 (amended): the model step performs no fold-count check before
the library call: for every configuration and dataset, the configured fold
count reaches `GridSearchCV` unchanged together with the actual training
partition size, whether or not the fold count exceeds it; the only failure
signal would be the library's own exception during the call. -/
theorem claim_c6_cv_passed_through {α β : Type} (c : Config) (X : List α)
    (Y : List β) (perm : List ℕ) (hperm : perm.Perm (List.range X.length)) :
    searchPrelude c X.length =
      Except.ok ⟨c.cv, (modelSplit c X Y perm).xTrain.length, param_grid c⟩ := by
  rw [modelSplit_train_length c X Y perm hperm]
  rfl

/-- Concrete instance of the amended C6 statement: fold count 10 against a
5-row training partition, search call still reached. -/
theorem claim_c6_witness :
    (List.range 55).Perm (List.range (List.range 55).length) ∧
    searchPrelude cfgTenFolds (List.range 55).length =
      Except.ok ⟨cfgTenFolds.cv,
        (modelSplit cfgTenFolds (List.range 55) (List.range 55)
          (List.range 55)).xTrain.length, param_grid cfgTenFolds⟩ :=
  ⟨List.Perm.refl _,
   claim_c6_cv_passed_through cfgTenFolds (List.range 55) (List.range 55)
     (List.range 55) (List.Perm.refl _)⟩

/-- Claim C7: standardization (lines 69-71) fits its scaling parameters on
the training partition only — `sc.fit_transform(X_train)` learns the
per-column mean and variance of `X_train`, the test partition never
influences the fitted state — and the same fitted transformation is then
applied to both partitions. -/
theorem claim_c7_standardize_train_only (xTr xTe xTe' : List (List ℚ)) :
    (standardizeStep xTr xTe).fitted = StandardScaler_fit xTr ∧
    (standardizeStep xTr xTe).fitted = (standardizeStep xTr xTe').fitted ∧
    (standardizeStep xTr xTe).xTrainScaled =
      (StandardScaler_fit xTr).transform xTr ∧
    (standardizeStep xTr xTe).xTestScaled =
      (StandardScaler_fit xTr).transform xTe :=
  ⟨rfl, rfl, rfl, rfl⟩


/-- `uniqueSorted` keeps exactly the values of its input. -/
theorem mem_uniqueSorted (l : List ℤ) (v : ℤ) : v ∈ uniqueSorted l ↔ v ∈ l := by
  rw [uniqueSorted, (List.perm_insertionSort _ _).mem_iff, List.mem_dedup]

/-- `uniqueSorted` has no duplicates. -/
theorem uniqueSorted_nodup (l : List ℤ) : (uniqueSorted l).Nodup :=
  (List.perm_insertionSort _ _).nodup_iff.mpr l.nodup_dedup

/-- `uniqueSorted` is ascending. -/
theorem uniqueSorted_sorted (l : List ℤ) :
    List.Sorted (fun a b => a ≤ b) (uniqueSorted l) :=
  List.sorted_insertionSort _ _

/-- Sums of pointwise sums split. -/
theorem sum_map_add {α : Type} (l : List α) (f g : α → ℕ) :
    (l.map (fun x => f x + g x)).sum = (l.map f).sum + (l.map g).sum := by
  induction l with
  | nil => rfl
  | cons a l ih =>
    simp only [List.map_cons, List.sum_cons, ih]
    ring

/-- A map to zero sums to zero. -/
theorem sum_map_zero {α : Type} (l : List α) :
    (l.map (fun _ => (0 : ℕ))).sum = 0 := by
  induction l with
  | nil => rfl
  | cons a l ih => simp [ih]

/-- An indicator over a list missing the value sums to zero. -/
theorem sum_indicator_zero (cls : List ℤ) (v : ℤ) (c : ℕ) (h : v ∉ cls) :
    (cls.map (fun a => if v = a then c else 0)).sum = 0 := by
  induction cls with
  | nil => rfl
  | cons b cls ih =>
    have hvb : v ≠ b := fun hv => h (hv ▸ List.mem_cons_self b cls)
    have h' : v ∉ cls := fun hv => h (List.mem_cons_of_mem b hv)
    simp [hvb, ih h']

/-- An indicator over a duplicate-free list containing the value sums to the
indicated constant. -/
theorem sum_indicator_one (cls : List ℤ) (v : ℤ) (c : ℕ) (h1 : cls.Nodup)
    (h2 : v ∈ cls) :
    (cls.map (fun a => if v = a then c else 0)).sum = c := by
  induction cls with
  | nil => cases h2
  | cons b cls ih =>
    rcases List.mem_cons.mp h2 with hb | hcl
    · subst hb
      have hnotin : v ∉ cls := (List.nodup_cons.mp h1).1
      simp [sum_indicator_zero cls v c hnotin]
    · have hvb : v ≠ b := by
        rintro rfl
        exact (List.nodup_cons.mp h1).1 hcl
      simp [hvb, ih (List.nodup_cons.mp h1).2 hcl]

/-- Double-counting: summing the pair counts over all cells of a
duplicate-free label square that covers every pair counts each pair exactly
once. -/
theorem double_count (cls : List ℤ) (L : List (ℤ × ℤ)) (hnd : cls.Nodup)
    (hmem : ∀ q ∈ L, q.1 ∈ cls ∧ q.2 ∈ cls) :
    (cls.map (fun a => (cls.map (fun p => pairCount L a p)).sum)).sum
      = L.length := by
  induction L with
  | nil =>
    have hz : (cls.map (fun a =>
        (cls.map (fun p => pairCount ([] : List (ℤ × ℤ)) a p)).sum))
        = cls.map (fun _ => 0) := by
      refine List.map_congr_left ?_
      intro a _
      have : (cls.map (fun p => pairCount ([] : List (ℤ × ℤ)) a p))
          = cls.map (fun _ => 0) := by
        refine List.map_congr_left ?_
        intro p _
        rfl
      rw [this, sum_map_zero]
    rw [hz, sum_map_zero]
    rfl
  | cons q L ih =>
    have hq := hmem q (List.mem_cons_self q L)
    have hrest : ∀ r ∈ L, r.1 ∈ cls ∧ r.2 ∈ cls := fun r hr =>
      hmem r (List.mem_cons_of_mem q hr)
    have hstep : ∀ a p : ℤ, pairCount (q :: L) a p
        = (if q.1 = a then (if q.2 = p then 1 else 0) else 0)
          + pairCount L a p := by
      intro a p
      by_cases h1 : q.1 = a <;> by_cases h2 : q.2 = p <;>
        simp [pairCount, List.filter_cons, h1, h2, Nat.add_comm]
    have houter : ∀ a : ℤ, (cls.map (fun p => pairCount (q :: L) a p)).sum
        = (if q.1 = a then 1 else 0)
          + (cls.map (fun p => pairCount L a p)).sum := by
      intro a
      have hmm : (cls.map (fun p => pairCount (q :: L) a p))
          = cls.map (fun p =>
              (if q.1 = a then (if q.2 = p then 1 else 0) else 0)
                + pairCount L a p) := by
        refine List.map_congr_left ?_
        intro p _
        exact hstep a p
      rw [hmm, sum_map_add]
      congr 1
      by_cases h1 : q.1 = a
      · simp only [h1, if_true]
        exact sum_indicator_one cls q.2 1 hnd hq.2
      · simp only [h1, if_false]
        exact sum_map_zero cls
    have hfull : (cls.map (fun a => (cls.map (fun p => pairCount (q :: L) a p)).sum))
        = cls.map (fun a =>
            (if q.1 = a then 1 else 0)
              + (cls.map (fun p => pairCount L a p)).sum) := by
      refine List.map_congr_left ?_
      intro a _
      exact houter a
    rw [hfull, sum_map_add, sum_indicator_one cls q.1 1 hnd hq.1, ih hrest]
    simp [Nat.add_comm]

/-- Claim C8: the entries of the confusion matrix computed on the test
labels and test predictions (line 140's `confusion_matrix(Y_test, Y_pred)`
semantics) sum exactly to the number of test samples: every sample's true
and predicted labels lie in the sorted label union indexing the matrix, so
each sample is counted in exactly one cell. -/
theorem claim_c8_confusion_sum (yT yP : List ℤ) (h : yT.length = yP.length) :
    matrixSum (confusionMatrix yT yP) = yT.length := by
  have hnd := uniqueSorted_nodup (yT ++ yP)
  have hmem : ∀ q ∈ yT.zip yP,
      q.1 ∈ uniqueSorted (yT ++ yP) ∧ q.2 ∈ uniqueSorted (yT ++ yP) := by
    intro q hq
    have h12 : q.1 ∈ yT ∧ q.2 ∈ yP := by
      rcases q with ⟨a, b⟩
      exact List.of_mem_zip hq
    exact ⟨(mem_uniqueSorted _ _).mpr (List.mem_append_left _ h12.1),
           (mem_uniqueSorted _ _).mpr (List.mem_append_right _ h12.2)⟩
  have hdc := double_count (uniqueSorted (yT ++ yP)) (yT.zip yP) hnd hmem
  have hlen : (yT.zip yP).length = yT.length := by
    rw [List.length_zip]
    omega
  rw [matrixSum, confusionMatrix, List.map_map]
  exact hdc.trans hlen

/-- Concrete instance of C8: three test samples, matrix entries sum to 3. -/
theorem claim_c8_witness :
    ([0, 1, 1] : List ℤ).length = ([1, 1, 0] : List ℤ).length ∧
    matrixSum (confusionMatrix [0, 1, 1] [1, 1, 0]) =
      ([0, 1, 1] : List ℤ).length :=
  ⟨rfl, claim_c8_confusion_sum [0, 1, 1] [1, 1, 0] rfl⟩

/-- Looking a requested label up in the report finds its metrics triple. -/
theorem lookup_report (yT yP : List ℤ) (labels : List ℤ) (l : ℤ)
    (h : l ∈ labels) :
    List.lookup l (classification_report yT yP labels) =
      some ⟨precisionOf yT yP l, recallOf yT yP l, f1Of yT yP l⟩ := by
  induction labels with
  | nil => cases h
  | cons a labels ih =>
    by_cases hla : l = a
    · subst hla
      simp [classification_report, List.lookup]
    · have hbeq : (l == a) = false := beq_false_of_ne hla
      have hmem : l ∈ labels := by
        rcases List.mem_cons.mp h with h1 | h1
        · exact absurd h1 hla
        · exact h1
      simpa [classification_report, List.lookup, hbeq] using ih hmem

/-- Claim C9: a class with zero true positives and zero predicted positives
on the test split — a class entirely absent from it included — is reported
with precision 0 and recall 0 (sklearn's default `zero_division` behaviour
for line 126's `classification_report`): the metric computation is total
and returns zeros rather than failing on the 0/0 denominators. -/
theorem claim_c9_zero_division (yT yP : List ℤ) (labels : List ℤ) (l : ℤ)
    (hmem : l ∈ labels) (htp : truePos yT yP l = 0)
    (hpp : predPos yP l = 0) :
    precisionOf yT yP l = 0 ∧ recallOf yT yP l = 0 ∧
    List.lookup l (classification_report yT yP labels) = some ⟨0, 0, 0⟩ := by
  have hp : precisionOf yT yP l = 0 := by
    rw [precisionOf, if_pos hpp]
  have hr : recallOf yT yP l = 0 := by
    rw [recallOf]
    by_cases ha : actualPos yT l = 0
    · rw [if_pos ha]
    · rw [if_neg ha, htp]
      simp
  have hf : f1Of yT yP l = 0 := by
    rw [f1Of, hp, hr]
    norm_num
  refine ⟨hp, hr, ?_⟩
  rw [lookup_report yT yP labels l hmem, hp, hr, hf]

/-- Concrete instance of C9: class 0 absent from a test split whose labels
and predictions are all 1. -/
theorem claim_c9_witness :
    ((0 : ℤ) ∈ ([0, 1] : List ℤ) ∧ truePos [1, 1] [1, 1] 0 = 0 ∧
      predPos [1, 1] 0 = 0) ∧
    (precisionOf [1, 1] [1, 1] 0 = 0 ∧ recallOf [1, 1] [1, 1] 0 = 0 ∧
      List.lookup 0 (classification_report [1, 1] [1, 1] [0, 1]) =
        some ⟨0, 0, 0⟩) :=
  ⟨⟨by decide, by decide, by decide⟩,
   claim_c9_zero_division [1, 1] [1, 1] [0, 1] 0 (by decide) (by decide)
     (by decide)⟩

/-- `getD` through a `map`, at an in-range index. -/
theorem getD_map_lt {α β : Type} (g : α → β) :
    ∀ (l : List α) (i : ℕ), i < l.length →
      ∀ (d : β) (d0 : α), (l.map g).getD i d = g (l.getD i d0) := by
  intro l
  induction l with
  | nil =>
    intro i hi
    exact absurd hi (Nat.not_lt_zero i)
  | cons a l ih =>
    intro i hi d d0
    cases i with
    | zero => rfl
    | succ n =>
      have hn : n < l.length := Nat.lt_of_succ_lt_succ hi
      show (l.map g).getD n d = g (l.getD n d0)
      exact ih n hn d d0

/-- Claim C10: the surface renderer (lines 93-100) is total on every score
table, rectangular or not: the x axis is the sorted unique `n_estimators`
values of the table, the y axis the sorted unique `max_depth` values, and
each cell holds the group-mean accuracy when its `(max_depth, n_estimators)`
combination occurs in the table and NaN (`none`) when it is missing —
no error is raised for missing combinations. -/
theorem claim_c10_surface (rows : List ScoreRow) (i j : ℕ)
    (hi : i < (surfaceData rows).y.length)
    (hj : j < (surfaceData rows).x.length) :
    List.Sorted (fun a b => a ≤ b) (surfaceData rows).x ∧
    (surfaceData rows).x.Nodup ∧
    List.Sorted (fun a b => a ≤ b) (surfaceData rows).y ∧
    (surfaceData rows).y.Nodup ∧
    (∀ v, v ∈ (surfaceData rows).x ↔ v ∈ rows.map ScoreRow.nEst) ∧
    (∀ v, v ∈ (surfaceData rows).y ↔ v ∈ rows.map ScoreRow.maxDepth) ∧
    (((surfaceData rows).y.getD i 0, (surfaceData rows).x.getD j 0)
        ∉ keyList rows →
      ((surfaceData rows).z.getD i []).getD j none = none) ∧
    (((surfaceData rows).y.getD i 0, (surfaceData rows).x.getD j 0)
        ∈ keyList rows →
      ((surfaceData rows).z.getD i []).getD j none =
        some (meanAccFor rows
          ((surfaceData rows).y.getD i 0, (surfaceData rows).x.getD j 0))) := by
  simp only [surfaceData] at hi hj ⊢
  refine ⟨uniqueSorted_sorted _, uniqueSorted_nodup _, uniqueSorted_sorted _,
    uniqueSorted_nodup _, fun v => mem_uniqueSorted _ v,
    fun v => mem_uniqueSorted _ v, ?_, ?_⟩
  · intro hmiss
    rw [getD_map_lt _ _ i hi [] 0, getD_map_lt _ _ j hj none 0] at *
    exact if_neg hmiss
  · intro hhit
    rw [getD_map_lt _ _ i hi [] 0, getD_map_lt _ _ j hj none 0] at *
    exact if_pos hhit

/-- Concrete instance of C10: the non-rectangular table `rowsPartial` is
missing the combination `(7, 60)`; its cell at row index 1, column index 1
is NaN. -/
theorem claim_c10_witness :
    (1 < (surfaceData rowsPartial).y.length ∧
     1 < (surfaceData rowsPartial).x.length ∧
     ((surfaceData rowsPartial).y.getD 1 0, (surfaceData rowsPartial).x.getD 1 0)
       ∉ keyList rowsPartial) ∧
    ((surfaceData rowsPartial).z.getD 1 []).getD 1 none = none :=
  ⟨⟨by decide, by decide, by decide⟩,
   (claim_c10_surface rowsPartial 1 1 (by decide) (by decide)).2.2.2.2.2.2.1
     (by decide)⟩
